import Mathlib

/-!
Shallow embedding of the zyloplayhouse membership-management core
(src/app.py and src/app_supabase.py): data model, membership-number
generation, plan assignment, and visit accounting, with theorems
checking the specification's claims against this embedding.

Modelling conventions:
* calendar dates and timestamps are `Int` (days since an arbitrary epoch);
  SQLite's `date(x) >= date('now')` and Supabase's ISO-string `gte`
  comparison both become `today ≤ end_date`;
* the four tables are Lean lists carried in a `DB` record, with the
  AUTOINCREMENT primary-key counters made explicit;
* the notification collaborators (certificate PDF rendering, SMTP send)
  are modelled by boolean success parameters; `record_visit` reports in
  its result whether the completion branch ran, whether the certificate
  was produced and whether an email went out.
-/

namespace ZyloPlayhouse

/-- A row of the `members` table (src/app.py `init_db`). -/
structure Member where
  member_id : Nat
  membership_no : String
  parent_name : String
  phone_number : String
  child_name : String
  child_dob : Int
  member_since : Int
  deriving DecidableEq

/-- A row of the `plans` table (src/app.py `init_db`). -/
structure Plan where
  plan_id : Nat
  plan_type : String
  entitled_visits : Nat
  per_visit_hours : Nat
  price : Rat
  validity_days : Nat
  deriving DecidableEq

/-- A row of the `member_plan` table (src/app.py `init_db`). -/
structure MemberPlan where
  mp_id : Nat
  member_id : Nat
  plan_id : Nat
  start_date : Int
  end_date : Int
  visits_used : Nat
  deriving DecidableEq

/-- A row of the `visits` table (src/app.py `init_db`). -/
structure Visit where
  visit_id : Nat
  member_id : Nat
  visit_date : Int
  hours_used : Nat
  notes : String
  deriving DecidableEq

/-- The persistent store: the four tables plus the AUTOINCREMENT counters
that SQLite / Supabase maintain for the integer primary keys. -/
structure DB where
  members : List Member
  plans : List Plan
  member_plan : List MemberPlan
  visits : List Visit
  next_member_id : Nat
  next_mp_id : Nat
  next_visit_id : Nat
  deriving DecidableEq

/-- The empty store. -/
def DB.empty : DB := ⟨[], [], [], [], 1, 1, 1⟩

/-! ### Decimal rendering, mirroring Python's f-string `{x:04d}` -/

/-- The decimal digit character for a digit value. -/
def digitChar : Nat → Char
  | 0 => '0'
  | 1 => '1'
  | 2 => '2'
  | 3 => '3'
  | 4 => '4'
  | 5 => '5'
  | 6 => '6'
  | 7 => '7'
  | 8 => '8'
  | _ => '9'

/-- Numeric value of a decimal digit character. -/
def digitVal (c : Char) : Nat := c.toNat - 48

/-- Big-endian decimal digits of `n` (empty for `0`), fuel-indexed so the
recursion is structural; `fuel = n` always suffices. -/
def natToDigitsAux : Nat → Nat → List Char
  | _, 0 => []
  | 0, _ + 1 => []
  | fuel + 1, n + 1 => natToDigitsAux fuel ((n + 1) / 10) ++ [digitChar ((n + 1) % 10)]

/-- Big-endian decimal digits of `n` (empty for `0`). -/
def natToDigits (n : Nat) : List Char := natToDigitsAux n n

/-- Decimal rendering of a natural number. -/
def natRepr (n : Nat) : String := if n = 0 then "0" else String.mk (natToDigits n)

/-- Value of a big-endian decimal digit string. -/
def decodeDigits (l : List Char) : Nat := l.foldl (fun acc c => acc * 10 + digitVal c) 0

/-- Value of the decimal digits of a string. -/
def decodeStr (s : String) : Nat := decodeDigits s.data

/-- Left-pad a string with `'0'` to a minimum width `w`, as Python's
`{x:0wd}` format does. -/
def zeroPad (w : Nat) (s : String) : String :=
  String.mk (List.replicate (w - s.length) '0' ++ s.data)

/-- Embedding of `generate_membership_no` (src/app.py lines 120-124 and
src/app_supabase.py lines 35-44): format the current member count plus one
as `"ZPHSI-"` followed by the 4-minimum-width zero-padded decimal. -/
def generate_membership_no (count : Nat) : String :=
  "ZPHSI-" ++ zeroPad 4 (natRepr (count + 1))

/-! ### Member CRUD (the parts the claims touch) -/

/-- Embedding of `add_member` (src/app.py lines 175-184, src/app_supabase.py lines 53-65):
generate a membership number from the current member count and insert the
row. -/
def add_member (db : DB) (parent_name phone child_name : String)
    (child_dob today : Int) : DB :=
  let no := generate_membership_no db.members.length
  let m : Member := ⟨db.next_member_id, no, parent_name, phone, child_name, child_dob, today⟩
  { db with members := db.members ++ [m], next_member_id := db.next_member_id + 1 }

/-- Embedding of `delete_member` (src/app_supabase.py lines 80-81): delete the member
rows with the given id; nothing cascades. -/
def delete_member (db : DB) (member_id : Nat) : DB :=
  { db with members := db.members.filter (fun m => m.member_id != member_id) }

/-! ### Plan assignment -/

/-- Embedding of `assign_plan_to_member` (src/app.py lines 201-218): default the start
date to today, look up the plan's `validity_days`, raise when the plan is
missing, otherwise insert a MemberPlan whose end date is the start date
plus the validity and whose `visits_used` is 0. -/
def assign_plan_to_member (db : DB) (member_id plan_id : Nat)
    (start_date : Option Int) (today : Int) : Except String DB :=
  let start := start_date.getD today
  match db.plans.find? (fun p => p.plan_id == plan_id) with
  | none => Except.error "Plan not found"
  | some p =>
    let mp : MemberPlan :=
      ⟨db.next_mp_id, member_id, plan_id, start, start + (p.validity_days : Int), 0⟩
    Except.ok { db with member_plan := db.member_plan ++ [mp],
                        next_mp_id := db.next_mp_id + 1 }

/-- Embedding of `assign_plan_to_member` (src/app_supabase.py lines 97-114): same
computation, but a missing plan makes the function return silently
(Python `return`, no exception) with no write. -/
def assign_plan_to_member_sb (db : DB) (member_id plan_id : Nat)
    (start_date : Option Int) (today : Int) : DB :=
  let start := start_date.getD today
  match db.plans.find? (fun p => p.plan_id == plan_id) with
  | none => db
  | some p =>
    let mp : MemberPlan :=
      ⟨db.next_mp_id, member_id, plan_id, start, start + (p.validity_days : Int), 0⟩
    { db with member_plan := db.member_plan ++ [mp],
              next_mp_id := db.next_mp_id + 1 }

/-! ### Visit accounting -/

/-- SQL `ORDER BY mp_id DESC LIMIT 1`: the element with the largest key, the
earliest such element when keys tie. -/
def latestBy {α : Type} (key : α → Nat) : List α → Option α
  | [] => none
  | a :: rest => some (rest.foldl (fun acc r => if key acc < key r then r else acc) a)

/-- The rows of the active-plan query of src/app.py line 227: `member_plan`
joined to `plans` and `members`, restricted to the given member and to
`end_date >= today`. -/
def activeJoin (db : DB) (member_id : Nat) (today : Int) : List (MemberPlan × Plan) :=
  db.member_plan.filterMap (fun mp =>
    if mp.member_id == member_id && decide (today ≤ mp.end_date) &&
        (db.members.find? (fun m => m.member_id == mp.member_id)).isSome then
      (db.plans.find? (fun p => p.plan_id == mp.plan_id)).map (fun p => (mp, p))
    else none)

/-- Embedding of `get_member_parent_email_by_member_id` (src/app.py lines 288-296): the
body reads the member's phone number and then returns `None`
unconditionally. -/
def get_member_parent_email_by_member_id (_db : DB) (_member_id : Nat) : Option String :=
  none

/-- What a `record_visit` call produced: the new store, whether the
completion condition held, whether the certificate PDF was produced, and
whether the completion email was sent. -/
structure VisitOutcome where
  db : DB
  completed : Bool
  pdfGenerated : Bool
  emailSent : Bool
  deriving DecidableEq

/-- Embedding of `record_visit` (src/app.py lines 220-243): insert the Visit row; find
the member's latest active MemberPlan through the three-table join; if one
exists increment its `visits_used`; if the new count reaches the plan's
`entitled_visits`, generate the certificate and attempt the email, with
every failure in that branch caught. `pdfOk` and `emailOk` model whether
the PDF rendering and the SMTP send succeed. -/
def record_visit (db : DB) (member_id : Nat) (hours_used : Nat) (notes : String)
    (today now : Int) (pdfOk emailOk : Bool) : VisitOutcome :=
  let v : Visit := ⟨db.next_visit_id, member_id, now, hours_used, notes⟩
  let db1 : DB := { db with visits := db.visits ++ [v],
                            next_visit_id := db.next_visit_id + 1 }
  match latestBy (fun x => x.1.mp_id) (activeJoin db1 member_id today) with
  | none => ⟨db1, false, false, false⟩
  | some (mp, p) =>
    let db2 : DB := { db1 with member_plan := db1.member_plan.map (fun r =>
      if r.mp_id == mp.mp_id then { r with visits_used := r.visits_used + 1 } else r) }
    if p.entitled_visits ≤ mp.visits_used + 1 then
      let parentEmail := get_member_parent_email_by_member_id db2 member_id
      ⟨db2, true, pdfOk, pdfOk && parentEmail.isSome && emailOk⟩
    else
      ⟨db2, false, false, false⟩

/-- Embedding of `record_visit` (src/app_supabase.py lines 135-149): insert the Visit
row; select the member's `member_plan` rows with `end_date >= today`,
latest `mp_id` first, limit 1; if one exists write back its stale
`visits_used + 1`. No completion branch exists in this revision. -/
def record_visit_sb (db : DB) (member_id : Nat) (hours_used : Nat) (notes : String)
    (today now : Int) : DB :=
  let v : Visit := ⟨db.next_visit_id, member_id, now, hours_used, notes⟩
  let db1 : DB := { db with visits := db.visits ++ [v],
                            next_visit_id := db.next_visit_id + 1 }
  let actives := db1.member_plan.filter
    (fun mp => mp.member_id == member_id && decide (today ≤ mp.end_date))
  match latestBy MemberPlan.mp_id actives with
  | none => db1
  | some mp =>
    { db1 with member_plan := db1.member_plan.map (fun r =>
      if r.mp_id == mp.mp_id then { r with visits_used := mp.visits_used + 1 } else r) }

/-! ### Lemmas on the latest-active-plan selection -/

lemma foldl_latest_choice {α : Type} (key : α → Nat) :
    ∀ (l : List α) (a : α),
      l.foldl (fun acc r => if key acc < key r then r else acc) a = a ∨
      l.foldl (fun acc r => if key acc < key r then r else acc) a ∈ l := by
  intro l
  induction l with
  | nil => intro a; exact Or.inl rfl
  | cons b t ih =>
    intro a
    simp only [List.foldl_cons]
    rcases ih (if key a < key b then b else a) with h | h
    · rw [h]
      by_cases hb : key a < key b
      · rw [if_pos hb]; exact Or.inr (List.mem_cons_self b t)
      · rw [if_neg hb]; exact Or.inl rfl
    · exact Or.inr (List.mem_cons_of_mem _ h)

lemma foldl_latest_le {α : Type} (key : α → Nat) :
    ∀ (l : List α) (a : α),
      key a ≤ key (l.foldl (fun acc r => if key acc < key r then r else acc) a) ∧
      ∀ y ∈ l, key y ≤ key (l.foldl (fun acc r => if key acc < key r then r else acc) a) := by
  intro l
  induction l with
  | nil =>
    intro a
    exact ⟨Nat.le_refl _, by intro y hy; cases hy⟩
  | cons b t ih =>
    intro a
    simp only [List.foldl_cons]
    obtain ⟨h1, h2⟩ := ih (if key a < key b then b else a)
    have haa : key a ≤ key (if key a < key b then b else a) := by
      by_cases hb : key a < key b
      · rw [if_pos hb]; exact Nat.le_of_lt hb
      · rw [if_neg hb]
    have hba : key b ≤ key (if key a < key b then b else a) := by
      by_cases hb : key a < key b
      · rw [if_pos hb]
      · rw [if_neg hb]; omega
    refine ⟨Nat.le_trans haa h1, ?_⟩
    intro y hy
    rcases List.mem_cons.mp hy with rfl | hy'
    · exact Nat.le_trans hba h1
    · exact h2 y hy'

lemma latestBy_mem {α : Type} (key : α → Nat) (l : List α) (x : α)
    (h : latestBy key l = some x) : x ∈ l := by
  match l with
  | [] => cases h
  | a :: rest =>
    simp only [latestBy, Option.some.injEq] at h
    rcases foldl_latest_choice key rest a with h1 | h1
    · rw [← h, h1]; exact List.mem_cons_self a rest
    · rw [← h]; exact List.mem_cons_of_mem _ h1

lemma latestBy_maximal {α : Type} (key : α → Nat) (l : List α) (x : α)
    (h : latestBy key l = some x) : ∀ y ∈ l, key y ≤ key x := by
  match l with
  | [] => cases h
  | a :: rest =>
    simp only [latestBy, Option.some.injEq] at h
    obtain ⟨h1, h2⟩ := foldl_latest_le key rest a
    intro y hy
    rcases List.mem_cons.mp hy with rfl | hy'
    · rw [← h]; exact h1
    · rw [← h]; exact h2 y hy'

lemma latestBy_isSome_of_mem {α : Type} (key : α → Nat) (l : List α) (x : α)
    (hx : x ∈ l) : ∃ z, latestBy key l = some z := by
  match l with
  | [] => cases hx
  | a :: rest => exact ⟨_, rfl⟩

/-- Membership in the three-table active-plan join of src/app.py line 227. -/
lemma mem_activeJoin (db : DB) (member_id : Nat) (today : Int) (mp : MemberPlan) (p : Plan) :
    (mp, p) ∈ activeJoin db member_id today ↔
      mp ∈ db.member_plan ∧ mp.member_id = member_id ∧ today ≤ mp.end_date ∧
      (db.members.find? (fun m => m.member_id == mp.member_id)).isSome = true ∧
      db.plans.find? (fun q => q.plan_id == mp.plan_id) = some p := by
  simp only [activeJoin, List.mem_filterMap]
  constructor
  · rintro ⟨mp', hmp', hf⟩
    split at hf
    case isTrue hc =>
      obtain ⟨p', hp', heq⟩ := Option.map_eq_some'.mp hf
      simp only [Prod.mk.injEq] at heq
      obtain ⟨rfl, rfl⟩ := heq
      simp only [Bool.and_eq_true, beq_iff_eq, decide_eq_true_eq] at hc
      exact ⟨hmp', hc.1.1, hc.1.2, hc.2, hp'⟩
    case isFalse hc => cases hf
  · rintro ⟨hmem, hmid, hend, hfindm, hfindp⟩
    refine ⟨mp, hmem, ?_⟩
    rw [if_pos, hfindp]
    · rfl
    · simp only [Bool.and_eq_true, beq_iff_eq, decide_eq_true_eq]
      exact ⟨⟨hmid, hend⟩, hfindm⟩

/-- The active-plan query does not look at the `visits` table or the visit
counter, so inserting the Visit row first does not change its result. -/
lemma activeJoin_update (db : DB) (vs : List Visit) (nv : Nat) (member_id : Nat)
    (today : Int) :
    activeJoin { db with visits := vs, next_visit_id := nv } member_id today
      = activeJoin db member_id today := rfl

/-- Evaluation of `record_visit` when the active-plan query finds a row. -/
lemma record_visit_eq_some (db : DB) (member_id hours_used : Nat) (notes : String)
    (today now : Int) (pdfOk emailOk : Bool) (mp : MemberPlan) (p : Plan)
    (hlb : latestBy (fun x : MemberPlan × Plan => x.1.mp_id)
      (activeJoin db member_id today) = some (mp, p)) :
    record_visit db member_id hours_used notes today now pdfOk emailOk =
      { db := { db with
          member_plan := db.member_plan.map (fun r =>
            if r.mp_id == mp.mp_id then { r with visits_used := r.visits_used + 1 } else r),
          visits := db.visits ++ [⟨db.next_visit_id, member_id, now, hours_used, notes⟩],
          next_visit_id := db.next_visit_id + 1 },
        completed := decide (p.entitled_visits ≤ mp.visits_used + 1),
        pdfGenerated := decide (p.entitled_visits ≤ mp.visits_used + 1) && pdfOk,
        emailSent := false } := by
  simp only [record_visit, activeJoin_update, hlb, get_member_parent_email_by_member_id]
  by_cases hc : p.entitled_visits ≤ mp.visits_used + 1 <;> simp [hc]

/-- Evaluation of `record_visit` when the active-plan query is empty. -/
lemma record_visit_eq_none (db : DB) (member_id hours_used : Nat) (notes : String)
    (today now : Int) (pdfOk emailOk : Bool)
    (hlb : latestBy (fun x : MemberPlan × Plan => x.1.mp_id)
      (activeJoin db member_id today) = none) :
    record_visit db member_id hours_used notes today now pdfOk emailOk =
      { db := { db with
          visits := db.visits ++ [⟨db.next_visit_id, member_id, now, hours_used, notes⟩],
          next_visit_id := db.next_visit_id + 1 },
        completed := false, pdfGenerated := false, emailSent := false } := by
  simp only [record_visit, activeJoin_update, hlb]

/-- Evaluation of `record_visit_sb` when the active-plan query finds a row. -/
lemma record_visit_sb_eq_some (db : DB) (member_id hours_used : Nat) (notes : String)
    (today now : Int) (mp : MemberPlan)
    (hlb : latestBy MemberPlan.mp_id (db.member_plan.filter
      (fun r => r.member_id == member_id && decide (today ≤ r.end_date))) = some mp) :
    record_visit_sb db member_id hours_used notes today now =
      { db with
        member_plan := db.member_plan.map (fun r =>
          if r.mp_id == mp.mp_id then { r with visits_used := mp.visits_used + 1 } else r),
        visits := db.visits ++ [⟨db.next_visit_id, member_id, now, hours_used, notes⟩],
        next_visit_id := db.next_visit_id + 1 } := by
  simp only [record_visit_sb, hlb]

/-- Evaluation of `record_visit_sb` when the active-plan query is empty. -/
lemma record_visit_sb_eq_none (db : DB) (member_id hours_used : Nat) (notes : String)
    (today now : Int)
    (hlb : latestBy MemberPlan.mp_id (db.member_plan.filter
      (fun r => r.member_id == member_id && decide (today ≤ r.end_date))) = none) :
    record_visit_sb db member_id hours_used notes today now =
      { db with
        visits := db.visits ++ [⟨db.next_visit_id, member_id, now, hours_used, notes⟩],
        next_visit_id := db.next_visit_id + 1 } := by
  simp only [record_visit_sb, hlb]

/-! ### Lemmas on the decimal rendering -/

lemma digitVal_digitChar : ∀ d : Nat, d < 10 → digitVal (digitChar d) = d := by decide

lemma decodeDigits_append_single (l : List Char) (c : Char) :
    decodeDigits (l ++ [c]) = decodeDigits l * 10 + digitVal c := by
  simp [decodeDigits, List.foldl_append]

lemma decodeDigits_natToDigitsAux :
    ∀ fuel n : Nat, n ≤ fuel → decodeDigits (natToDigitsAux fuel n) = n := by
  intro fuel
  induction fuel with
  | zero =>
    intro n h
    have hn : n = 0 := Nat.le_zero.mp h
    subst hn
    rfl
  | succ f ih =>
    intro n h
    match n with
    | 0 => rfl
    | m + 1 =>
      have hdiv : (m + 1) / 10 ≤ f := by
        have := Nat.div_lt_self (Nat.succ_pos m) (by decide : 1 < 10)
        omega
      calc decodeDigits (natToDigitsAux (f + 1) (m + 1))
          = decodeDigits (natToDigitsAux f ((m + 1) / 10) ++ [digitChar ((m + 1) % 10)]) := rfl
        _ = decodeDigits (natToDigitsAux f ((m + 1) / 10)) * 10
              + digitVal (digitChar ((m + 1) % 10)) := decodeDigits_append_single _ _
        _ = ((m + 1) / 10) * 10 + (m + 1) % 10 := by
              rw [ih _ hdiv, digitVal_digitChar _ (Nat.mod_lt _ (by decide))]
        _ = m + 1 := by omega

lemma decodeDigits_natToDigits (n : Nat) : decodeDigits (natToDigits n) = n :=
  decodeDigits_natToDigitsAux n n (Nat.le_refl n)

lemma decodeStr_natRepr (n : Nat) : decodeStr (natRepr n) = n := by
  by_cases h : n = 0
  · subst h; rfl
  · simp only [natRepr, if_neg h, decodeStr]
    exact decodeDigits_natToDigits n

lemma decodeDigits_replicate_zero (k : Nat) (l : List Char) :
    decodeDigits (List.replicate k '0' ++ l) = decodeDigits l := by
  induction k with
  | zero => rfl
  | succ m ih => exact ih

lemma decodeStr_zeroPad (w : Nat) (s : String) : decodeStr (zeroPad w s) = decodeStr s := by
  simp only [decodeStr, zeroPad]
  exact decodeDigits_replicate_zero _ _

lemma length_zeroPad (w : Nat) (s : String) : (zeroPad w s).length = max w s.length := by
  show (List.replicate (w - s.length) '0' ++ s.data).length = max w s.length
  rw [List.length_append, List.length_replicate]
  have hs : s.data.length = s.length := rfl
  omega

lemma generate_membership_no_inj (a b : Nat)
    (hab : generate_membership_no a = generate_membership_no b) : a = b := by
  have hdata : ("ZPHSI-" ++ zeroPad 4 (natRepr (a + 1))).data
      = ("ZPHSI-" ++ zeroPad 4 (natRepr (b + 1))).data := congrArg String.data hab
  rw [String.data_append, String.data_append] at hdata
  have hzp : (zeroPad 4 (natRepr (a + 1))).data = (zeroPad 4 (natRepr (b + 1))).data :=
    List.append_cancel_left hdata
  have hdec : decodeStr (zeroPad 4 (natRepr (a + 1)))
      = decodeStr (zeroPad 4 (natRepr (b + 1))) := congrArg decodeDigits hzp
  rw [decodeStr_zeroPad, decodeStr_zeroPad, decodeStr_natRepr, decodeStr_natRepr] at hdec
  omega

/-! ### C8: membership-number format -/

/-- C8: for current member count `n`, `generate_membership_no` returns
exactly `"ZPHSI-"` followed by the decimal of `n + 1` zero-padded to a
minimum width of 4 (the padded suffix decodes back to `n + 1` and has
length `max 4 (digits of n+1)`, so values beyond 9999 are rendered in
full); in particular counts 0, 41, 999, 12344 give `ZPHSI-0001`,
`ZPHSI-0042`, `ZPHSI-1000`, `ZPHSI-12345`. -/
theorem C8_membership_no_format (n : Nat) :
    generate_membership_no n = "ZPHSI-" ++ zeroPad 4 (natRepr (n + 1)) ∧
    decodeStr (zeroPad 4 (natRepr (n + 1))) = n + 1 ∧
    (zeroPad 4 (natRepr (n + 1))).length = max 4 (natRepr (n + 1)).length ∧
    generate_membership_no 0 = "ZPHSI-0001" ∧
    generate_membership_no 41 = "ZPHSI-0042" ∧
    generate_membership_no 999 = "ZPHSI-1000" ∧
    generate_membership_no 12344 = "ZPHSI-12345" := by
  refine ⟨rfl, ?_, length_zeroPad _ _, by decide, by decide, by decide, by decide⟩
  rw [decodeStr_zeroPad, decodeStr_natRepr]

/-! ### C7: uniqueness of membership numbers -/

/-- Concrete scenario refuting C7: two members registered, then the first
deleted, leaving one member numbered ZPHSI-0002 while the member count is
back to 1. -/
def c7_db : DB :=
  delete_member (add_member (add_member DB.empty "a" "1" "c" 0 0) "b" "2" "d" 0 0) 1

/-- C7 counterexample: after registering two members and deleting the
first, the count-based generator re-issues `ZPHSI-0002`, the number still
held by the surviving member; registering a third member then yields two
members with the same membership number, so membership numbers ARE reused
after deletion. -/
theorem C7_counterexample :
    generate_membership_no c7_db.members.length = "ZPHSI-0002" ∧
    c7_db.members.map Member.membership_no = ["ZPHSI-0002"] ∧
    (add_member c7_db "e" "3" "f" 0 0).members.map Member.membership_no
      = ["ZPHSI-0002", "ZPHSI-0002"] := by decide

/-- C7 amended: in the absence of deletions (so that the member count is
strictly increasing across calls), successive `generate_membership_no`
results are pairwise distinct and their numeric suffixes strictly
increase; with a deletion the count drops and an existing number is
re-issued (see the counterexample). -/
theorem C7_membership_no_distinct_without_deletion (m n : Nat) (h : m < n) :
    generate_membership_no m ≠ generate_membership_no n ∧
    ∃ s t : String, generate_membership_no m = "ZPHSI-" ++ s ∧
      generate_membership_no n = "ZPHSI-" ++ t ∧ decodeStr s < decodeStr t := by
  constructor
  · intro hab
    exact absurd (generate_membership_no_inj m n hab) (Nat.ne_of_lt h)
  · refine ⟨zeroPad 4 (natRepr (m + 1)), zeroPad 4 (natRepr (n + 1)), rfl, rfl, ?_⟩
    rw [decodeStr_zeroPad, decodeStr_zeroPad, decodeStr_natRepr, decodeStr_natRepr]
    omega

/-- Witness for the amended C7 at counts 0 and 1. -/
theorem C7_membership_no_distinct_witness :
    generate_membership_no 0 ≠ generate_membership_no 1 ∧
    ∃ s t : String, generate_membership_no 0 = "ZPHSI-" ++ s ∧
      generate_membership_no 1 = "ZPHSI-" ++ t ∧ decodeStr s < decodeStr t :=
  C7_membership_no_distinct_without_deletion 0 1 (by decide)

/-! ### Concrete stores used by witnesses and counterexamples -/

/-- One member, one plan with `entitled_visits = 2` and `validity_days = 30`,
two member-plans for the member with a `visits_used` of 0 and 1. -/
def sampleDB : DB :=
  { members := [⟨1, "ZPHSI-0001", "pa", "99", "ch", 0, 0⟩],
    plans := [⟨1, "Gold", 2, 1, 0, 30⟩],
    member_plan := [⟨1, 1, 1, 0, 30, 0⟩, ⟨2, 1, 1, 5, 35, 1⟩],
    visits := [],
    next_member_id := 2, next_mp_id := 3, next_visit_id := 1 }

/-! ### C1: active-plan precedence -/

/-- C1: when a member holds two or more MemberPlans with `end_date ≥ today`,
`record_visit` (both revisions) increments `visits_used` of exactly the
active MemberPlan with the highest `mp_id` and leaves every other
MemberPlan row unchanged.  Hypotheses: `mp_id` is a primary key (nodup),
the member row exists and each of the member's MemberPlans joins to an
existing Plan (as the SQL join requires), `mpStar` is active for the
member with the maximal `mp_id`, and at least one other active MemberPlan
exists. -/
theorem C1_active_plan_precedence
    (db : DB) (member_id hours_used : Nat) (notes : String) (today now : Int)
    (pdfOk emailOk : Bool) (mpStar : MemberPlan)
    (hnodup : (db.member_plan.map MemberPlan.mp_id).Nodup)
    (hmem : (db.members.find? (fun m => m.member_id == member_id)).isSome = true)
    (hplans : ∀ mp ∈ db.member_plan, mp.member_id = member_id →
      (db.plans.find? (fun q => q.plan_id == mp.plan_id)).isSome = true)
    (hstar : mpStar ∈ db.member_plan) (hsmid : mpStar.member_id = member_id)
    (hsend : today ≤ mpStar.end_date)
    (hmax : ∀ mp ∈ db.member_plan, mp.member_id = member_id → today ≤ mp.end_date →
      mp.mp_id ≤ mpStar.mp_id)
    (htwo : ∃ mp2 ∈ db.member_plan, mp2 ≠ mpStar ∧ mp2.member_id = member_id ∧
      today ≤ mp2.end_date) :
    (record_visit db member_id hours_used notes today now pdfOk emailOk).db.member_plan
      = db.member_plan.map (fun r =>
          if r.mp_id = mpStar.mp_id then { r with visits_used := r.visits_used + 1 } else r) ∧
    (record_visit_sb db member_id hours_used notes today now).member_plan
      = db.member_plan.map (fun r =>
          if r.mp_id = mpStar.mp_id then { r with visits_used := r.visits_used + 1 } else r) ∧
    ∀ r ∈ db.member_plan, r.mp_id ≠ mpStar.mp_id →
      r ∈ (record_visit db member_id hours_used notes today now pdfOk emailOk).db.member_plan := by
  obtain ⟨pStar, hpStar⟩ := Option.isSome_iff_exists.mp (hplans mpStar hstar hsmid)
  have hfm : (db.members.find? (fun m => m.member_id == mpStar.member_id)).isSome = true := by
    rw [hsmid]; exact hmem
  have hin : (mpStar, pStar) ∈ activeJoin db member_id today :=
    (mem_activeJoin db member_id today mpStar pStar).mpr ⟨hstar, hsmid, hsend, hfm, hpStar⟩
  obtain ⟨z, hlb⟩ := latestBy_isSome_of_mem (fun x => x.1.mp_id) _ _ hin
  obtain ⟨mp, p⟩ := z
  obtain ⟨hmpmem, hmpmid, hmpend, -, -⟩ :=
    (mem_activeJoin db member_id today mp p).mp (latestBy_mem _ _ _ hlb)
  have hge : mpStar.mp_id ≤ mp.mp_id := latestBy_maximal _ _ _ hlb (mpStar, pStar) hin
  have hle : mp.mp_id ≤ mpStar.mp_id := hmax mp hmpmem hmpmid hmpend
  have hmp_eq : mp = mpStar :=
    List.inj_on_of_nodup_map hnodup hmpmem hstar (Nat.le_antisymm hle hge)
  subst hmp_eq
  have hstar_f : mp ∈ db.member_plan.filter
      (fun r => r.member_id == member_id && decide (today ≤ r.end_date)) := by
    rw [List.mem_filter]
    refine ⟨hstar, ?_⟩
    simp only [Bool.and_eq_true, beq_iff_eq, decide_eq_true_eq]
    exact ⟨hsmid, hsend⟩
  obtain ⟨mpS, hlbS⟩ := latestBy_isSome_of_mem MemberPlan.mp_id _ _ hstar_f
  have hSmem := latestBy_mem _ _ _ hlbS
  rw [List.mem_filter] at hSmem
  obtain ⟨hSmem', hSpred⟩ := hSmem
  simp only [Bool.and_eq_true, beq_iff_eq, decide_eq_true_eq] at hSpred
  have hge2 : mp.mp_id ≤ mpS.mp_id := latestBy_maximal _ _ _ hlbS mp hstar_f
  have hle2 : mpS.mp_id ≤ mp.mp_id := hmax mpS hSmem' hSpred.1 hSpred.2
  have hS_eq : mpS = mp :=
    List.inj_on_of_nodup_map hnodup hSmem' hstar (Nat.le_antisymm hle2 hge2)
  subst hS_eq
  rw [record_visit_eq_some db member_id hours_used notes today now pdfOk emailOk mpS p hlb,
    record_visit_sb_eq_some db member_id hours_used notes today now mpS hlbS]
  refine ⟨?_, ?_, ?_⟩
  · apply List.map_congr_left
    intro r _
    by_cases h : r.mp_id = mpS.mp_id <;> simp [h]
  · apply List.map_congr_left
    intro r hr
    by_cases h : r.mp_id = mpS.mp_id
    · have : r = mpS := List.inj_on_of_nodup_map hnodup hr hSmem' h
      subst this
      simp [h]
    · simp [h]
  · intro r hr h
    have himg :
        (fun r => if r.mp_id == mpS.mp_id
          then { r with visits_used := r.visits_used + 1 } else r) r
          ∈ db.member_plan.map (fun r =>
            if r.mp_id == mpS.mp_id
            then { r with visits_used := r.visits_used + 1 } else r) :=
      List.mem_map_of_mem _ hr
    simpa [h] using himg

/-- Witness for C1: in `sampleDB` with two active member-plans (ids 1 and 2),
the visit is booked on mp 2 only. -/
theorem C1_active_plan_precedence_witness :
    (record_visit sampleDB 1 1 "" 10 10 true true).db.member_plan
      = sampleDB.member_plan.map (fun r =>
          if r.mp_id = (⟨2, 1, 1, 5, 35, 1⟩ : MemberPlan).mp_id
          then { r with visits_used := r.visits_used + 1 } else r) ∧
    (record_visit_sb sampleDB 1 1 "" 10 10).member_plan
      = sampleDB.member_plan.map (fun r =>
          if r.mp_id = (⟨2, 1, 1, 5, 35, 1⟩ : MemberPlan).mp_id
          then { r with visits_used := r.visits_used + 1 } else r) ∧
    ∀ r ∈ sampleDB.member_plan, r.mp_id ≠ (⟨2, 1, 1, 5, 35, 1⟩ : MemberPlan).mp_id →
      r ∈ (record_visit sampleDB 1 1 "" 10 10 true true).db.member_plan :=
  C1_active_plan_precedence sampleDB 1 1 "" 10 10 true true ⟨2, 1, 1, 5, 35, 1⟩
    (by decide) (by decide) (by decide) (by decide) (by decide) (by decide)
    (by decide) (by decide)

/-! ### C2: completion trigger condition -/

/-- C2 counterexample: in `sampleDB` the visit pushes the active mp's
counter to 2, reaching the entitlement of 2, so the claim demands the
completion notification fire; the app.py revision does set its completion
branch running (`completed = true`), but the app_supabase revision's
`record_visit` — cited by the same claim — consists solely of the Visit
insert and the counter write-back: its entire effect is this store update,
and no certificate generation or email attempt exists in that revision
(src/app_supabase.py line 149 is only a comment), so the claimed
if-and-only-if triggering is false for it. -/
theorem C2_counterexample :
    (record_visit sampleDB 1 1 "" 10 10 true true).completed = true ∧
    record_visit_sb sampleDB 1 1 "" 10 10
      = { sampleDB with
          member_plan := [⟨1, 1, 1, 0, 30, 0⟩, ⟨2, 1, 1, 5, 35, 2⟩],
          visits := [⟨1, 1, 10, 1, ""⟩],
          next_visit_id := 2 } := by decide

/-- C2 amended: in the app.py revision, when `record_visit` finds an
active MemberPlan `mp` joined to plan `p`, the completion notification
branch runs exactly when the incremented count reaches the entitlement:
`completed = true ↔ entitled_visits ≤ visits_used + 1`; hence with
`entitled_visits = 0` every visit triggers it, and (no already-notified
guard) it triggers again on every visit at or beyond the crossing.  The
app_supabase revision never triggers any completion notification: its
`record_visit`'s whole effect is the Visit insert and the member_plan
write-back — members and plans are untouched and exactly one Visit row is
appended, with no notification step of any kind. -/
theorem C2_completion_trigger
    (db : DB) (member_id hours_used : Nat) (notes : String) (today now : Int)
    (pdfOk emailOk : Bool) (mp : MemberPlan) (p : Plan)
    (hlb : latestBy (fun x : MemberPlan × Plan => x.1.mp_id)
      (activeJoin db member_id today) = some (mp, p)) :
    ((record_visit db member_id hours_used notes today now pdfOk emailOk).completed = true
      ↔ p.entitled_visits ≤ mp.visits_used + 1) ∧
    (p.entitled_visits = 0 →
      (record_visit db member_id hours_used notes today now pdfOk emailOk).completed = true) ∧
    (p.entitled_visits ≤ mp.visits_used →
      (record_visit db member_id hours_used notes today now pdfOk emailOk).completed = true) ∧
    (record_visit_sb db member_id hours_used notes today now).members = db.members ∧
    (record_visit_sb db member_id hours_used notes today now).plans = db.plans ∧
    (record_visit_sb db member_id hours_used notes today now).visits
      = db.visits ++ [⟨db.next_visit_id, member_id, now, hours_used, notes⟩] := by
  have hsb : (record_visit_sb db member_id hours_used notes today now).members = db.members ∧
      (record_visit_sb db member_id hours_used notes today now).plans = db.plans ∧
      (record_visit_sb db member_id hours_used notes today now).visits
        = db.visits ++ [⟨db.next_visit_id, member_id, now, hours_used, notes⟩] := by
    cases hlbS : latestBy MemberPlan.mp_id (db.member_plan.filter
        (fun r => r.member_id == member_id && decide (today ≤ r.end_date))) with
    | none =>
      rw [record_visit_sb_eq_none db member_id hours_used notes today now hlbS]
      exact ⟨rfl, rfl, rfl⟩
    | some mp2 =>
      rw [record_visit_sb_eq_some db member_id hours_used notes today now mp2 hlbS]
      exact ⟨rfl, rfl, rfl⟩
  rw [record_visit_eq_some db member_id hours_used notes today now pdfOk emailOk mp p hlb]
  refine ⟨by simp, ?_, ?_, hsb.1, hsb.2.1, hsb.2.2⟩ <;> intro h <;> simp <;> omega

/-- Witness for the amended C2 in `sampleDB`: the active mp has
`visits_used = 1` against an entitlement of 2, so this visit completes the
plan in the app.py revision, while the app_supabase revision only writes
the store. -/
theorem C2_completion_trigger_witness :
    ((record_visit sampleDB 1 1 "" 10 10 true true).completed = true
      ↔ (⟨1, "Gold", 2, 1, 0, 30⟩ : Plan).entitled_visits
          ≤ (⟨2, 1, 1, 5, 35, 1⟩ : MemberPlan).visits_used + 1) ∧
    ((⟨1, "Gold", 2, 1, 0, 30⟩ : Plan).entitled_visits = 0 →
      (record_visit sampleDB 1 1 "" 10 10 true true).completed = true) ∧
    ((⟨1, "Gold", 2, 1, 0, 30⟩ : Plan).entitled_visits
        ≤ (⟨2, 1, 1, 5, 35, 1⟩ : MemberPlan).visits_used →
      (record_visit sampleDB 1 1 "" 10 10 true true).completed = true) ∧
    (record_visit_sb sampleDB 1 1 "" 10 10).members = sampleDB.members ∧
    (record_visit_sb sampleDB 1 1 "" 10 10).plans = sampleDB.plans ∧
    (record_visit_sb sampleDB 1 1 "" 10 10).visits
      = sampleDB.visits ++ [⟨sampleDB.next_visit_id, 1, 10, 1, ""⟩] :=
  C2_completion_trigger sampleDB 1 1 "" 10 10 true true ⟨2, 1, 1, 5, 35, 1⟩
    ⟨1, "Gold", 2, 1, 0, 30⟩ (by decide)

/-! ### C3: plan assignment validity window -/

/-- C3: assigning an existing plan inserts exactly one new MemberPlan whose
`end_date` is `start_date + validity_days` in exact day arithmetic and
whose `visits_used` is 0, in both revisions; an omitted start date
defaults to today. -/
theorem C3_assign_plan_validity
    (db : DB) (member_id plan_id : Nat) (start : Option Int) (today : Int) (p : Plan)
    (hp : db.plans.find? (fun q => q.plan_id == plan_id) = some p) :
    (∃ db2, assign_plan_to_member db member_id plan_id start today = Except.ok db2 ∧
      db2.member_plan = db.member_plan ++
        [⟨db.next_mp_id, member_id, plan_id, start.getD today,
          start.getD today + (p.validity_days : Int), 0⟩] ∧
      db2.members = db.members ∧ db2.plans = db.plans ∧ db2.visits = db.visits) ∧
    (assign_plan_to_member_sb db member_id plan_id start today).member_plan
      = db.member_plan ++
        [⟨db.next_mp_id, member_id, plan_id, start.getD today,
          start.getD today + (p.validity_days : Int), 0⟩] ∧
    (start = none →
      (assign_plan_to_member_sb db member_id plan_id start today).member_plan
        = db.member_plan ++
          [⟨db.next_mp_id, member_id, plan_id, today,
            today + (p.validity_days : Int), 0⟩]) := by
  have happ : assign_plan_to_member db member_id plan_id start today
      = Except.ok { db with
          member_plan := db.member_plan ++
            [⟨db.next_mp_id, member_id, plan_id, start.getD today,
              start.getD today + (p.validity_days : Int), 0⟩],
          next_mp_id := db.next_mp_id + 1 } := by
    simp only [assign_plan_to_member, hp]
  have hsb : assign_plan_to_member_sb db member_id plan_id start today
      = { db with
          member_plan := db.member_plan ++
            [⟨db.next_mp_id, member_id, plan_id, start.getD today,
              start.getD today + (p.validity_days : Int), 0⟩],
          next_mp_id := db.next_mp_id + 1 } := by
    simp only [assign_plan_to_member_sb, hp]
  refine ⟨⟨_, happ, rfl, rfl, rfl, rfl⟩, by rw [hsb], ?_⟩
  intro hstart
  subst hstart
  rw [hsb]
  rfl

/-- Witness for C3 in `sampleDB`: assigning plan 1 (validity 30) from day 7
yields a member-plan ending on day 37 with zero visits used. -/
theorem C3_assign_plan_validity_witness :
    (∃ db2, assign_plan_to_member sampleDB 1 1 (some 7) 0 = Except.ok db2 ∧
      db2.member_plan = sampleDB.member_plan ++
        [⟨sampleDB.next_mp_id, 1, 1, (some 7 : Option Int).getD 0,
          (some 7 : Option Int).getD 0 + ((⟨1, "Gold", 2, 1, 0, 30⟩ : Plan).validity_days : Int),
          0⟩] ∧
      db2.members = sampleDB.members ∧ db2.plans = sampleDB.plans ∧
      db2.visits = sampleDB.visits) ∧
    (assign_plan_to_member_sb sampleDB 1 1 (some 7) 0).member_plan
      = sampleDB.member_plan ++
        [⟨sampleDB.next_mp_id, 1, 1, (some 7 : Option Int).getD 0,
          (some 7 : Option Int).getD 0 + ((⟨1, "Gold", 2, 1, 0, 30⟩ : Plan).validity_days : Int),
          0⟩] ∧
    ((some 7 : Option Int) = none →
      (assign_plan_to_member_sb sampleDB 1 1 (some 7) 0).member_plan
        = sampleDB.member_plan ++
          [⟨sampleDB.next_mp_id, 1, 1, 0,
            0 + ((⟨1, "Gold", 2, 1, 0, 30⟩ : Plan).validity_days : Int), 0⟩]) :=
  C3_assign_plan_validity sampleDB 1 1 (some 7) 0 ⟨1, "Gold", 2, 1, 0, 30⟩ (by decide)

/-! ### C4: assignment with a missing plan -/

/-- C4 counterexample: in the app_supabase revision, assigning nonexistent
plan 999 returns normally with the store unchanged — the claimed
`NotFoundError` is never raised (the revision has no raise at all in this
path), while an existing plan id does produce a write. -/
theorem C4_counterexample :
    assign_plan_to_member_sb sampleDB 1 999 none 0 = sampleDB ∧
    assign_plan_to_member_sb sampleDB 1 1 none 0 ≠ sampleDB := by decide

/-- C4 amended: a missing `plan_id` performs no write in either revision;
the app.py revision fails with the not-found error, while the
app_supabase revision returns silently without any error. -/
theorem C4_assign_missing_plan
    (db : DB) (member_id plan_id : Nat) (start : Option Int) (today : Int)
    (hp : db.plans.find? (fun q => q.plan_id == plan_id) = none) :
    assign_plan_to_member db member_id plan_id start today
      = Except.error "Plan not found" ∧
    assign_plan_to_member_sb db member_id plan_id start today = db := by
  simp [assign_plan_to_member, assign_plan_to_member_sb, hp]

/-- Witness for the amended C4 at plan id 999, absent from `sampleDB`. -/
theorem C4_assign_missing_plan_witness :
    assign_plan_to_member sampleDB 1 999 none 0 = Except.error "Plan not found" ∧
    assign_plan_to_member_sb sampleDB 1 999 none 0 = sampleDB :=
  C4_assign_missing_plan sampleDB 1 999 none 0 (by decide)

/-! ### C5: visit recorded even without an active plan -/

/-- C5: when the member has no MemberPlan with `end_date ≥ today`,
`record_visit` (both revisions) still appends exactly one Visit row,
leaves every MemberPlan untouched, runs no completion check, and returns
normally (the embedding is a total function — no error path exists). -/
theorem C5_visit_without_active_plan
    (db : DB) (member_id hours_used : Nat) (notes : String) (today now : Int)
    (pdfOk emailOk : Bool)
    (hnone : ∀ mp ∈ db.member_plan, mp.member_id = member_id → mp.end_date < today) :
    (record_visit db member_id hours_used notes today now pdfOk emailOk).db
      = { db with visits := db.visits ++ [⟨db.next_visit_id, member_id, now, hours_used, notes⟩],
                  next_visit_id := db.next_visit_id + 1 } ∧
    (record_visit db member_id hours_used notes today now pdfOk emailOk).db.member_plan
      = db.member_plan ∧
    (record_visit db member_id hours_used notes today now pdfOk emailOk).db.visits.length
      = db.visits.length + 1 ∧
    (record_visit db member_id hours_used notes today now pdfOk emailOk).completed = false ∧
    record_visit_sb db member_id hours_used notes today now
      = { db with visits := db.visits ++ [⟨db.next_visit_id, member_id, now, hours_used, notes⟩],
                  next_visit_id := db.next_visit_id + 1 } := by
  have hjoin : activeJoin db member_id today = [] := by
    simp only [activeJoin]
    rw [List.filterMap_eq_nil_iff]
    intro mp hmp
    have hcond : (mp.member_id == member_id && decide (today ≤ mp.end_date) &&
        (db.members.find? (fun m => m.member_id == mp.member_id)).isSome) = false := by
      by_cases hm : mp.member_id = member_id
      · have : ¬ today ≤ mp.end_date := by
          have := hnone mp hmp hm
          omega
        simp [this]
      · simp [hm]
    rw [if_neg]
    simp [hcond]
  have hfilter : db.member_plan.filter
      (fun r => r.member_id == member_id && decide (today ≤ r.end_date)) = [] := by
    rw [List.filter_eq_nil_iff]
    intro mp hmp
    by_cases hm : mp.member_id = member_id
    · have : ¬ today ≤ mp.end_date := by
        have := hnone mp hmp hm
        omega
      simp [this]
    · simp [hm]
  have hlb : latestBy (fun x : MemberPlan × Plan => x.1.mp_id)
      (activeJoin db member_id today) = none := by rw [hjoin]; rfl
  have hlbS : latestBy MemberPlan.mp_id (db.member_plan.filter
      (fun r => r.member_id == member_id && decide (today ≤ r.end_date))) = none := by
    rw [hfilter]; rfl
  rw [record_visit_eq_none db member_id hours_used notes today now pdfOk emailOk hlb,
    record_visit_sb_eq_none db member_id hours_used notes today now hlbS]
  refine ⟨rfl, rfl, ?_, rfl, rfl⟩
  simp

/-- Witness for C5: in `sampleDB` on day 100 both member-plans have
expired, so a visit is logged and nothing else changes. -/
theorem C5_visit_without_active_plan_witness :
    (record_visit sampleDB 1 1 "" 100 100 true true).db
      = { sampleDB with
          visits := sampleDB.visits ++ [⟨sampleDB.next_visit_id, 1, 100, 1, ""⟩],
          next_visit_id := sampleDB.next_visit_id + 1 } ∧
    (record_visit sampleDB 1 1 "" 100 100 true true).db.member_plan
      = sampleDB.member_plan ∧
    (record_visit sampleDB 1 1 "" 100 100 true true).db.visits.length
      = sampleDB.visits.length + 1 ∧
    (record_visit sampleDB 1 1 "" 100 100 true true).completed = false ∧
    record_visit_sb sampleDB 1 1 "" 100 100
      = { sampleDB with
          visits := sampleDB.visits ++ [⟨sampleDB.next_visit_id, 1, 100, 1, ""⟩],
          next_visit_id := sampleDB.next_visit_id + 1 } :=
  C5_visit_without_active_plan sampleDB 1 1 "" 100 100 true true (by decide)

/-! ### C6: notification failure never propagates -/

/-- C6: the outcome of certificate generation and email delivery (`pdfOk`,
`emailOk`) never changes the resulting store or the completion check:
`record_visit` is a total function of its inputs (no exception escapes),
the Visit row persists, and the `visits_used` increment is not rolled
back — the store equals the one produced when both succeed. -/
theorem C6_notification_failure_isolated
    (db : DB) (member_id hours_used : Nat) (notes : String) (today now : Int)
    (pdfOk emailOk : Bool) :
    (record_visit db member_id hours_used notes today now pdfOk emailOk).db
      = (record_visit db member_id hours_used notes today now true true).db ∧
    (record_visit db member_id hours_used notes today now pdfOk emailOk).completed
      = (record_visit db member_id hours_used notes today now true true).completed ∧
    (⟨db.next_visit_id, member_id, now, hours_used, notes⟩ : Visit) ∈
      (record_visit db member_id hours_used notes today now pdfOk emailOk).db.visits := by
  cases hlb : latestBy (fun x : MemberPlan × Plan => x.1.mp_id)
      (activeJoin db member_id today) with
  | none =>
    rw [record_visit_eq_none db member_id hours_used notes today now pdfOk emailOk hlb,
      record_visit_eq_none db member_id hours_used notes today now true true hlb]
    simp
  | some z =>
    obtain ⟨mp, p⟩ := z
    rw [record_visit_eq_some db member_id hours_used notes today now pdfOk emailOk mp p hlb,
      record_visit_eq_some db member_id hours_used notes today now true true mp p hlb]
    simp

/-! ### C9: visit counter monotone, but not clamped -/

/-- Concrete scenario for C9: one member, a plan entitling a single visit,
one fresh member-plan. -/
def c9_db : DB :=
  { members := [⟨1, "ZPHSI-0001", "pa", "99", "ch", 0, 0⟩],
    plans := [⟨1, "Basic", 1, 1, 0, 30⟩],
    member_plan := [⟨1, 1, 1, 0, 30, 0⟩],
    visits := [],
    next_member_id := 2, next_mp_id := 2, next_visit_id := 1 }

/-- C9 counterexample: two visits against a plan entitling one push
`visits_used` to 2, strictly above `entitled_visits = 1` — the source does
not clamp the counter at the entitlement. -/
theorem C9_counterexample :
    ((record_visit (record_visit c9_db 1 1 "" 0 0 true true).db
        1 1 "" 0 0 true true).db.member_plan.map MemberPlan.visits_used = [2]) ∧
    (∃ mp ∈ (record_visit (record_visit c9_db 1 1 "" 0 0 true true).db
        1 1 "" 0 0 true true).db.member_plan,
      ∃ p ∈ c9_db.plans, p.plan_id = mp.plan_id ∧ p.entitled_visits < mp.visits_used) := by
  decide

/-- C9 amended: `visits_used` starts at 0 on assignment and is
monotonically non-decreasing — each `record_visit` (either revision)
changes each row's counter by at most +1 and never decreases it — but it
is NOT bounded by `entitled_visits` (no clamp exists; see the
counterexample). -/
theorem C9_visits_used_monotone
    (db : DB) (member_id hours_used : Nat) (notes : String) (today now : Int)
    (pdfOk emailOk : Bool) (plan_id : Nat) (start : Option Int)
    (hnodup : (db.member_plan.map MemberPlan.mp_id).Nodup) :
    (∀ r ∈ db.member_plan,
      ∃ r' ∈ (record_visit db member_id hours_used notes today now pdfOk emailOk).db.member_plan,
        r'.mp_id = r.mp_id ∧ r.visits_used ≤ r'.visits_used ∧
        r'.visits_used ≤ r.visits_used + 1) ∧
    (∀ r ∈ db.member_plan,
      ∃ r' ∈ (record_visit_sb db member_id hours_used notes today now).member_plan,
        r'.mp_id = r.mp_id ∧ r.visits_used ≤ r'.visits_used ∧
        r'.visits_used ≤ r.visits_used + 1) ∧
    (∀ r ∈ (assign_plan_to_member_sb db member_id plan_id start today).member_plan,
      r ∈ db.member_plan ∨ r.visits_used = 0) := by
  refine ⟨?_, ?_, ?_⟩
  · intro r hr
    cases hlb : latestBy (fun x : MemberPlan × Plan => x.1.mp_id)
        (activeJoin db member_id today) with
    | none =>
      rw [record_visit_eq_none db member_id hours_used notes today now pdfOk emailOk hlb]
      exact ⟨r, hr, rfl, Nat.le_refl _, Nat.le_succ _⟩
    | some z =>
      obtain ⟨mp, p⟩ := z
      rw [record_visit_eq_some db member_id hours_used notes today now pdfOk emailOk mp p hlb]
      refine ⟨(fun r => if r.mp_id == mp.mp_id
        then { r with visits_used := r.visits_used + 1 } else r) r,
        List.mem_map_of_mem _ hr, ?_⟩
      by_cases h : r.mp_id = mp.mp_id <;> simp [h]
  · intro r hr
    cases hlbS : latestBy MemberPlan.mp_id (db.member_plan.filter
        (fun s => s.member_id == member_id && decide (today ≤ s.end_date))) with
    | none =>
      rw [record_visit_sb_eq_none db member_id hours_used notes today now hlbS]
      exact ⟨r, hr, rfl, Nat.le_refl _, Nat.le_succ _⟩
    | some mp =>
      have hmp_mem := latestBy_mem _ _ _ hlbS
      rw [List.mem_filter] at hmp_mem
      rw [record_visit_sb_eq_some db member_id hours_used notes today now mp hlbS]
      refine ⟨(fun r => if r.mp_id == mp.mp_id
        then { r with visits_used := mp.visits_used + 1 } else r) r,
        List.mem_map_of_mem _ hr, ?_⟩
      by_cases h : r.mp_id = mp.mp_id
      · have : r = mp := List.inj_on_of_nodup_map hnodup hr hmp_mem.1 h
        subst this
        simp [h]
      · simp [h]
  · intro r hr
    simp only [assign_plan_to_member_sb] at hr
    cases hp : db.plans.find? (fun q => q.plan_id == plan_id) with
    | none =>
      rw [hp] at hr
      exact Or.inl hr
    | some p =>
      rw [hp] at hr
      simp only [List.mem_append, List.mem_singleton] at hr
      rcases hr with hr | hr
      · exact Or.inl hr
      · subst hr
        exact Or.inr rfl

/-- Witness for the amended C9 in `sampleDB`. -/
theorem C9_visits_used_monotone_witness :
    (∀ r ∈ sampleDB.member_plan,
      ∃ r' ∈ (record_visit sampleDB 1 1 "" 10 10 true true).db.member_plan,
        r'.mp_id = r.mp_id ∧ r.visits_used ≤ r'.visits_used ∧
        r'.visits_used ≤ r.visits_used + 1) ∧
    (∀ r ∈ sampleDB.member_plan,
      ∃ r' ∈ (record_visit_sb sampleDB 1 1 "" 10 10).member_plan,
        r'.mp_id = r.mp_id ∧ r.visits_used ≤ r'.visits_used ∧
        r'.visits_used ≤ r.visits_used + 1) ∧
    (∀ r ∈ (assign_plan_to_member_sb sampleDB 1 1 (some 7) 10).member_plan,
      r ∈ sampleDB.member_plan ∨ r.visits_used = 0) :=
  C9_visits_used_monotone sampleDB 1 1 "" 10 10 true true 1 (some 7) (by decide)

/-! ### C10: no completion email is ever sent in app.py -/

/-- C10: in the app.py revision `get_member_parent_email_by_member_id`
returns `none` for every member, so `record_visit` never sends the
completion email (`emailSent = false` for all inputs), while the
certificate PDF is still produced on each completion
(`pdfGenerated = completed && pdfOk`, so whenever generation itself
succeeds the PDF exists exactly on completions). -/
theorem C10_no_completion_email
    (db : DB) (member_id hours_used : Nat) (notes : String) (today now : Int)
    (pdfOk emailOk : Bool) :
    get_member_parent_email_by_member_id db member_id = none ∧
    (record_visit db member_id hours_used notes today now pdfOk emailOk).emailSent = false ∧
    (record_visit db member_id hours_used notes today now pdfOk emailOk).pdfGenerated
      = ((record_visit db member_id hours_used notes today now pdfOk emailOk).completed
          && pdfOk) := by
  refine ⟨rfl, ?_, ?_⟩ <;>
  · cases hlb : latestBy (fun x : MemberPlan × Plan => x.1.mp_id)
        (activeJoin db member_id today) with
    | none =>
      simp [record_visit_eq_none db member_id hours_used notes today now pdfOk emailOk hlb]
    | some z =>
      obtain ⟨mp, p⟩ := z
      simp [record_visit_eq_some db member_id hours_used notes today now pdfOk emailOk mp p hlb]

end ZyloPlayhouse
